import Mathlib

/-!
Verification development for the nekoproxy repository (Controller/Agent L4
reverse-proxy fleet).  Each Python function relevant to the checked claims is
shallowly embedded as an executable Lean definition; theorems below settle the
claims against these embeddings.

Conventions:
- Python `dict` values keyed by scalars become association lists
  (`List (k × v)`), with first-match lookup mirroring unique-key dicts.
- Wall-clock timestamps (`datetime`, `time.time()`) become `ℚ` (seconds with
  fractional part).  Python `int(x)` (truncation toward zero) is `pyInt`.
- `collections.deque(maxlen=n)` becomes a `List` with capped append
  (`dequeAppend` / `dequeAppendLeft`), dropping from the opposite end when
  full, exactly as CPython does.
- External side effects (iptables commands, interface resolution, backend
  connect outcomes) are oracles passed as function parameters; the embedding
  records the commands issued and their outcomes.
-/

set_option autoImplicit false

namespace NekoProxy

/-! ## Generic list helpers (association lists, bounded deques) -/

/-- First-match lookup in an association list (Python `dict.__getitem__` /
`in` test for dicts whose keys are unique). -/
def alistFind {κ α : Type} [DecidableEq κ] : List (κ × α) → κ → Option α
  | [], _ => none
  | (k, v) :: rest, key => if k = key then some v else alistFind rest key

/-- Remove the first element satisfying `p` (SQLAlchemy `query(...).first()`
followed by `delete`); no-op when nothing matches. -/
def removeFirstBy {α : Type} (p : α → Bool) : List α → List α
  | [] => []
  | x :: xs => if p x then xs else x :: removeFirstBy p xs

/-- CPython `deque(maxlen=cap).append x`: append right, and when the deque is
full discard the leftmost (oldest) element. -/
def dequeAppend {α : Type} (cap : Nat) (q : List α) (x : α) : List α :=
  let q' := q ++ [x]
  if cap < q'.length then q'.drop (q'.length - cap) else q'

/-- CPython `deque(maxlen=cap).appendleft x`: prepend left, and when the deque
is full discard the rightmost (newest) element. -/
def dequeAppendLeft {α : Type} (cap : Nat) (q : List α) (x : α) : List α :=
  let q' := x :: q
  if cap < q'.length then q'.take cap else q'

/-! ## Stats reporter (src/agent/core/stats_reporter.py)

The reporter owns `self._stats_queue = deque(maxlen=10000)`.  `record` builds
a dict from the finished connection's fields and appends it; `_send_batch`
drains up to `stats_batch_size` entries with `popleft`, POSTs them, and on an
`httpx.RequestError` pushes the batch back with `appendleft` in reversed
order. -/

/-- Capacity of the bounded stats queue (`deque(maxlen=10000)`). -/
def statsQueueCap : Nat := 10000

/-- Default `stats_batch_size` from agent settings. -/
def statsBatchSize : Nat := 100

/-- Fields of a completed connection consulted by `StatsReporter.record`. -/
structure RecordedStats where
  service_id : Nat
  client_ip : String
  status : String
  duration : ℚ
  bytes_sent : Nat
  bytes_received : Nat
deriving DecidableEq

/-- The queued dict built by `StatsReporter.record` (lines 52-60); the
`timestamp` field holds the ISO string of `datetime.utcnow()`. -/
structure StatEntry where
  service_id : Nat
  client_ip : String
  status : String
  duration : ℚ
  bytes_sent : Nat
  bytes_received : Nat
  timestamp : String
deriving DecidableEq

/-- Dict construction inside `StatsReporter.record`. -/
def mkStatEntry (nowIso : String) (s : RecordedStats) : StatEntry :=
  { service_id := s.service_id
    client_ip := s.client_ip
    status := s.status
    duration := s.duration
    bytes_sent := s.bytes_sent
    bytes_received := s.bytes_received
    timestamp := nowIso }

/-- `StatsReporter.record`: non-blocking append onto the bounded deque. -/
def statsRecord (q : List StatEntry) (nowIso : String) (s : RecordedStats) :
    List StatEntry :=
  dequeAppend statsQueueCap q (mkStatEntry nowIso s)

/-- `StatsReporter._send_batch`.  `ok = true` models a successful POST,
`ok = false` an `httpx.RequestError` (transient network failure).  Returns the
queue afterwards and the batch that was delivered to the Controller (empty
when nothing was sent). -/
def sendBatch (q : List StatEntry) (ok : Bool) : List StatEntry × List StatEntry :=
  if q.isEmpty then (q, [])
  else
    let batch := q.take statsBatchSize
    let rest := q.drop statsBatchSize
    if batch.isEmpty then (q, [])
    else if ok then (rest, batch)
    else (batch.reverse.foldl (fun acc s => dequeAppendLeft statsQueueCap acc s) rest, [])

/-- One externally visible operation on the reporter's queue. -/
inductive StatsOp where
  | record (nowIso : String) (s : RecordedStats)
  | send (ok : Bool)

/-- Effect of one operation on the queue. -/
def statsApplyOp (q : List StatEntry) : StatsOp → List StatEntry
  | .record nowIso s => statsRecord q nowIso s
  | .send ok => (sendBatch q ok).1

/-- Queue contents after a sequence of operations starting from the empty
queue created in `StatsReporter.__init__`. -/
def statsRunOps (ops : List StatsOp) : List StatEntry :=
  ops.foldl statsApplyOp []

/-- Concrete entry used by the stats-reporter witnesses. -/
def sampleRecorded : RecordedStats :=
  { service_id := 1, client_ip := "198.51.100.9", status := "completed"
    duration := 2, bytes_sent := 5, bytes_received := 5 }

/-- Concrete queued entry used by the stats-reporter witnesses. -/
def sampleEntry : StatEntry := mkStatEntry "2026-01-01T00:00:00" sampleRecorded

/-! ## TCP/UDP proxy managers (src/agent/core/tcp_proxy.py lines 280-305,
src/agent/core/udp_proxy.py lines 307-331) and config apply
(src/agent/main.py lines 64-101)

`_on_config_update` converts each service to a dict with keys `listen_port`,
`protocol`, `backend_host`, `backend_port`, `service_id`, `service_name` —
and nothing else.  `TCPProxyManager.sync_proxies` reads `backend_host` /
`backend_port`, but `UDPProxyManager.sync_proxies` reads
`resolved_backend_host` / `resolved_backend_port`, keys the caller never
supplies; the optional fields below model that dict shape, and a missing key
access is a `KeyError` (`Except.error`). -/

/-- The service dict built by `_on_config_update` (lines 73-83).  The
`resolved_*` fields model optional dict keys: `none` means the key is absent
(as in every dict the agent's only caller builds). -/
structure SvcDict where
  listen_port : Nat
  protocol : String
  backend_host : String
  backend_port : Nat
  service_id : Nat
  service_name : String
  resolved_backend_host : Option String
  resolved_backend_port : Option Nat
deriving DecidableEq

/-- A running proxy listener as stored in a manager's `self._proxies` table. -/
structure ProxyEntry where
  listen_port : Nat
  backend_host : String
  backend_port : Nat
  service_id : Nat
  service_name : String
deriving DecidableEq

/-- Desired port set `{r['listen_port'] for r in rules if r.get('protocol') == proto}`. -/
def desiredPorts (proto : String) (rules : List SvcDict) : List Nat :=
  (rules.filter (fun r => r.protocol = proto)).map (·.listen_port)

/-- The TCP proxy constructed by `TCPProxyManager.add_proxy`. -/
def mkTCPProxy (r : SvcDict) : ProxyEntry :=
  { listen_port := r.listen_port, backend_host := r.backend_host
    backend_port := r.backend_port, service_id := r.service_id
    service_name := r.service_name }

/-- Add loop of `TCPProxyManager.sync_proxies`: walk the rules in order, skip
non-TCP rules, and start a proxy for each TCP port not already running. -/
def tcpAddProxies (st : List (Nat × ProxyEntry)) :
    List SvcDict → List (Nat × ProxyEntry)
  | [] => st
  | r :: rest =>
    if r.protocol = "tcp" ∧ alistFind st r.listen_port = none then
      tcpAddProxies (st ++ [(r.listen_port, mkTCPProxy r)]) rest
    else
      tcpAddProxies st rest

/-- `TCPProxyManager.sync_proxies`: stop proxies whose port is no longer
desired, then start proxies for new TCP ports. -/
def tcpSyncProxies (st : List (Nat × ProxyEntry)) (rules : List SvcDict) :
    List (Nat × ProxyEntry) :=
  let desired := desiredPorts "tcp" rules
  tcpAddProxies (st.filter (fun e => decide (e.1 ∈ desired))) rules

/-- Add loop of `UDPProxyManager.sync_proxies`: like the TCP one, but the
backend is read from `rule['resolved_backend_host']` /
`rule['resolved_backend_port']`; when the key is absent the subscript raises
`KeyError`. -/
def udpAddProxies (st : List (Nat × ProxyEntry)) :
    List SvcDict → Except String (List (Nat × ProxyEntry))
  | [] => .ok st
  | r :: rest =>
    if r.protocol = "udp" ∧ alistFind st r.listen_port = none then
      match r.resolved_backend_host, r.resolved_backend_port with
      | some h, some p =>
          udpAddProxies (st ++ [(r.listen_port,
            { listen_port := r.listen_port, backend_host := h, backend_port := p
              service_id := r.service_id, service_name := r.service_name })]) rest
      | _, _ => .error "KeyError: resolved_backend_host"
    else
      udpAddProxies st rest

/-- `UDPProxyManager.sync_proxies`. -/
def udpSyncProxies (st : List (Nat × ProxyEntry)) (rules : List SvcDict) :
    Except String (List (Nat × ProxyEntry)) :=
  let desired := desiredPorts "udp" rules
  udpAddProxies (st.filter (fun e => decide (e.1 ∈ desired))) rules

/-- Listener-table state owned by `NekoProxyAgent`'s two proxy managers. -/
structure ProxyTables where
  tcpProxies : List (Nat × ProxyEntry)
  udpProxies : List (Nat × ProxyEntry)
deriving DecidableEq

/-- The service fields the config carries (ServiceResponse as consumed by
`_on_config_update`). -/
structure SvcConfig where
  id : Nat
  name : String
  listen_port : Nat
  backend_host : String
  backend_port : Nat
  protocol : String
deriving DecidableEq

/-- Dict conversion in `_on_config_update` lines 73-83: exactly six keys, no
`resolved_*` keys. -/
def toSvcDict (s : SvcConfig) : SvcDict :=
  { listen_port := s.listen_port, protocol := s.protocol
    backend_host := s.backend_host, backend_port := s.backend_port
    service_id := s.id, service_name := s.name
    resolved_backend_host := none, resolved_backend_port := none }

/-- `NekoProxyAgent._on_config_update` restricted to the listener tables: TCP
sync, then UDP sync.  A `KeyError` inside the UDP sync escapes the apply task
(the blocklist swap before it survives; the firewall sync after it is never
reached). -/
def applyServices (st : ProxyTables) (services : List SvcConfig) :
    Except String ProxyTables :=
  let dicts := services.map toSvcDict
  let tcp := tcpSyncProxies st.tcpProxies dicts
  match udpSyncProxies st.udpProxies dicts with
  | .ok udp => .ok { tcpProxies := tcp, udpProxies := udp }
  | .error e => .error e

/-- Concrete UDP service used to exhibit the `KeyError` in
`UDPProxyManager.sync_proxies`. -/
def svcDns : SvcConfig :=
  { id := 1, name := "dns", listen_port := 5353, backend_host := "10.1.0.5"
    backend_port := 53, protocol := "udp" }

/-! ## UDP proxy data plane (src/agent/core/udp_proxy.py lines 14-166)

`UDPProxyProtocol.datagram_received` checks the blocklist first; for an
unknown client it *schedules* `_create_backend_connection` with
`asyncio.create_task` (it does not run it inline); for a known client it
forwards to the backend and bumps the session counters.  Datagram payloads
are modelled by their length (the only thing the handler uses). -/

/-- `UDPConnectionStats` for one client session. -/
structure UDPSession where
  client_ip : String
  client_port : Nat
  service_id : Nat
  start_time : ℚ
  bytes_sent : Nat
  bytes_received : Nat
  packets_sent : Nat
  packets_received : Nat
  last_activity : ℚ
  status : String
deriving DecidableEq

/-- State of one `UDPProxyProtocol` instance: constructor parameters, the
client session table `self._clients`, the set of scheduled (not yet run)
`_create_backend_connection` tasks, and the log of datagrams forwarded to the
backend. -/
structure UDPProtoState where
  backend_host : String
  backend_port : Nat
  service_id : Nat
  client_timeout : ℚ
  blocklist : List String
  clients : List ((String × Nat) × UDPSession)
  pendingCreates : List ((String × Nat) × Nat)
  backendSent : List ((String × Nat) × Nat)
deriving DecidableEq

/-- `UDPProxyProtocol.datagram_received(data, addr)` with `len` the payload
length and `now` the value of `time.time()`. -/
def datagramReceived (st : UDPProtoState) (len : Nat) (addr : String × Nat)
    (now : ℚ) : UDPProtoState :=
  if addr.1 ∈ st.blocklist then st
  else
    match alistFind st.clients addr with
    | none =>
        { st with pendingCreates := st.pendingCreates ++ [(addr, len)] }
    | some s =>
        { st with
          clients := st.clients.map (fun e =>
            if e.1 = addr then
              (addr, { s with bytes_sent := s.bytes_sent + len
                              packets_sent := s.packets_sent + 1
                              last_activity := now })
            else e)
          backendSent := st.backendSent ++ [(addr, len)] }

/-- Effect of one scheduled `_create_backend_connection(addr, initial_data)`
task completing successfully at time `now`: allocate the upstream socket,
build fresh stats, store the session, forward the initial datagram and bump
the counters. -/
def runCreateBackend (st : UDPProtoState) (addr : String × Nat) (len : Nat)
    (now : ℚ) : UDPProtoState :=
  let stats : UDPSession :=
    { client_ip := addr.1, client_port := addr.2, service_id := st.service_id
      start_time := now, bytes_sent := len, bytes_received := 0
      packets_sent := 1, packets_received := 0, last_activity := now
      status := "active" }
  let clients' :=
    if (alistFind st.clients addr).isSome then
      st.clients.map (fun e => if e.1 = addr then (addr, stats) else e)
    else st.clients ++ [(addr, stats)]
  { st with
    clients := clients'
    pendingCreates := removeFirstBy (fun t => t = (addr, len)) st.pendingCreates
    backendSent := st.backendSent ++ [(addr, len)] }

/-- One pass of `UDPProxyProtocol._cleanup_loop` at time `now`: evict every
session idle longer than `client_timeout`, marking it `timeout`; returns the
new state and the stats records handed to `on_connection`. -/
def cleanupSweep (st : UDPProtoState) (now : ℚ) :
    UDPProtoState × List UDPSession :=
  let isExpired : ((String × Nat) × UDPSession) → Bool :=
    fun e => decide (st.client_timeout < now - e.2.last_activity)
  let expired := st.clients.filter isExpired
  ({ st with clients := st.clients.filter (fun e => ! isExpired e) },
   expired.map (fun e => { e.2 with status := "timeout" }))

/-- Concrete protocol state used by the UDP witnesses/counterexample: empty
session table, client 203.0.113.7 blocked. -/
def udpState0 : UDPProtoState :=
  { backend_host := "10.1.0.5", backend_port := 53, service_id := 1
    client_timeout := 300, blocklist := ["203.0.113.7"], clients := []
    pendingCreates := [], backendSent := [] }

/-- Concrete protocol state with an empty blocklist and an empty session
table, used for the C4 counterexample and witness. -/
def udpOpenState : UDPProtoState :=
  { backend_host := "10.1.0.5", backend_port := 53, service_id := 1
    client_timeout := 300, blocklist := [], clients := []
    pendingCreates := [], backendSent := [] }

/-- The fresh session stored by `_create_backend_connection` once the
scheduled task has run at time `now`, after forwarding the initial datagram
of length `len`. -/
def initialSession (st : UDPProtoState) (addr : String × Nat) (len : Nat)
    (now : ℚ) : UDPSession :=
  { client_ip := addr.1, client_port := addr.2, service_id := st.service_id
    start_time := now, bytes_sent := len, bytes_received := 0
    packets_sent := 1, packets_received := 0, last_activity := now
    status := "active" }

/-! ## TCP per-connection handler (src/agent/core/tcp_proxy.py lines 90-213)

`_handle_client` builds a `ConnectionStats`, consults the blocklist, and only
then tries to open the backend connection.  The backend connect outcome and
the byte totals moved by the two copier tasks are environment inputs. -/

/-- `ConnectionStats` for one TCP connection. -/
structure TCPConnStats where
  client_ip : String
  client_port : Nat
  service_id : Nat
  start_time : ℚ
  bytes_sent : Nat
  bytes_received : Nat
  status : String
deriving DecidableEq

/-- Outcome of `asyncio.open_connection` under `wait_for`: success, or one of
the three classified failures of lines 160-168. -/
inductive ConnectOutcome where
  | success
  | timeout
  | refused
  | failure
deriving DecidableEq

/-- Environment of one `_handle_client` call: the backend connect outcome and
the byte totals the two `_forward_data` copiers move before either side
finishes. -/
structure TCPFlowEnv where
  connect : ConnectOutcome
  c2bBytes : Nat
  b2cBytes : Nat

/-- Observable result of `_handle_client`: the final `ConnectionStats`, the
records handed to `on_connection`, whether a backend connection was opened
and whether the client socket was closed. -/
structure HandleResult where
  stat : TCPConnStats
  emitted : List TCPConnStats
  openedBackend : Bool
  closedClient : Bool
deriving DecidableEq

/-- `TCPProxy._handle_client`.  The blocked branch (lines 109-117) closes the
client, emits the stat and returns without touching the backend; otherwise
the connect outcome selects the status, and on success the copier byte totals
land in `bytes_sent` / `bytes_received` before `status = "completed"`. -/
def handleClient (blocklist : List String) (serviceId : Nat)
    (clientIp : String) (clientPort : Nat) (now : ℚ) (env : TCPFlowEnv) :
    HandleResult :=
  let stats : TCPConnStats :=
    { client_ip := clientIp, client_port := clientPort, service_id := serviceId
      start_time := now, bytes_sent := 0, bytes_received := 0
      status := "connected" }
  if clientIp ∈ blocklist then
    let s := { stats with status := "blocked" }
    { stat := s, emitted := [s], openedBackend := false, closedClient := true }
  else
    match env.connect with
    | .success =>
        let s := { stats with bytes_sent := env.c2bBytes
                              bytes_received := env.b2cBytes
                              status := "completed" }
        { stat := s, emitted := [s], openedBackend := true, closedClient := true }
    | .timeout =>
        let s := { stats with status := "timeout" }
        { stat := s, emitted := [s], openedBackend := false, closedClient := true }
    | .refused =>
        let s := { stats with status := "refused" }
        { stat := s, emitted := [s], openedBackend := false, closedClient := true }
    | .failure =>
        let s := { stats with status := "error" }
        { stat := s, emitted := [s], openedBackend := false, closedClient := true }

/-! ## Firewall reconciler (src/agent/core/firewall.py lines 178-264)

`sync_rules` computes the desired rule dictionary (skipping disabled rules
and rules whose symbolic interface cannot be resolved), then removes
installed keys that are no longer desired and adds desired keys that are not
installed.  Interface resolution and the success of each `iptables`
invocation are oracles; the embedding returns the new in-memory
`self._current_rules` together with the log of issued commands and their
outcomes. -/

/-- `FirewallRuleKey` (port, protocol, symbolic interface, action). -/
structure FirewallRuleKey where
  port : Nat
  protocol : String
  interface : String
  action : String
deriving DecidableEq

/-- Fields of `FirewallRuleResponse` consumed by `sync_rules`. -/
structure FwAgentRule where
  port : Nat
  protocol : String
  interface : String
  action : String
  enabled : Bool
deriving DecidableEq

/-- `FirewallManager._rule_to_key`. -/
def ruleToKey (r : FwAgentRule) : FirewallRuleKey :=
  { port := r.port, protocol := r.protocol, interface := r.interface
    action := r.action }

/-- Kind of an issued `iptables` command. -/
inductive FwOp where
  | add
  | remove
deriving DecidableEq

/-- An issued `iptables` command together with its outcome (`_run_iptables`
return value). -/
structure FwCmd where
  op : FwOp
  key : FirewallRuleKey
  ok : Bool
deriving DecidableEq

/-- The `desired_rules` dict of `sync_rules` lines 233-246 as an ordered
association list: disabled rules and rules with unresolvable interfaces are
skipped. -/
def desiredList (resolve : String → Option String) :
    List FwAgentRule → List (FirewallRuleKey × String)
  | [] => []
  | r :: rest =>
    if r.enabled then
      match resolve r.interface with
      | none => desiredList resolve rest
      | some iface => (ruleToKey r, iface) :: desiredList resolve rest
    else desiredList resolve rest

/-- Removal loop of `sync_rules` lines 250-256: every installed key that is
no longer desired is discarded from `self._current_rules` — whether or not
the `iptables -D` command (issued only when the interface resolves)
succeeds. -/
def removePhase (resolve : String → Option String)
    (removeOk : FirewallRuleKey → Bool) (dKeys : List FirewallRuleKey) :
    List FirewallRuleKey → List FirewallRuleKey × List FwCmd
  | [] => ([], [])
  | k :: rest =>
    let p := removePhase resolve removeOk dKeys rest
    if k ∈ dKeys then (k :: p.1, p.2)
    else
      match resolve k.interface with
      | some _ => (p.1, ⟨FwOp.remove, k, removeOk k⟩ :: p.2)
      | none => p

/-- Addition loop of `sync_rules` lines 258-262: a desired key not currently
installed is added to `self._current_rules` only when `_add_rule`
succeeded. -/
def addPhase (addOk : FirewallRuleKey → Bool) :
    List FirewallRuleKey → List (FirewallRuleKey × String) →
    List FirewallRuleKey × List FwCmd
  | cur, [] => (cur, [])
  | cur, (k, _) :: rest =>
    if k ∈ cur then addPhase addOk cur rest
    else if addOk k then
      let p := addPhase addOk (cur ++ [k]) rest
      (p.1, ⟨FwOp.add, k, true⟩ :: p.2)
    else
      let p := addPhase addOk cur rest
      (p.1, ⟨FwOp.add, k, false⟩ :: p.2)

/-- `FirewallManager.sync_rules`: desired set, removal pass, addition pass.
Returns the new `self._current_rules` and the command log. -/
def syncRules (resolve : String → Option String)
    (addOk removeOk : FirewallRuleKey → Bool)
    (current : List FirewallRuleKey) (rules : List FwAgentRule) :
    List FirewallRuleKey × List FwCmd :=
  let desired := desiredList resolve rules
  let dKeys := desired.map Prod.fst
  let rp := removePhase resolve removeOk dKeys current
  let ap := addPhase addOk rp.1 desired
  (ap.1, rp.2 ++ ap.2)

/-- Interface-resolution oracle used in firewall examples: only `eth0`
resolves. -/
def resolve0 : String → Option String :=
  fun s => if s = "eth0" then some "eth0" else none

/-- Concrete firewall key used in the C7 counterexample and witness. -/
def fwKey0 : FirewallRuleKey :=
  { port := 80, protocol := "tcp", interface := "eth0", action := "block" }

/-- Second concrete firewall key (not desired in `fwRules0`). -/
def fwKey1 : FirewallRuleKey :=
  { port := 81, protocol := "tcp", interface := "eth0", action := "block" }

/-- Concrete desired rule list whose only key is `fwKey0`. -/
def fwRules0 : List FwAgentRule :=
  [{ port := 80, protocol := "tcp", interface := "eth0", action := "block"
     enabled := true }]

/-! ## Agent registration (src/controller/core/agent_manager.py lines 29-52,
src/controller/database/repositories.py lines 14-26)

`register_agent` looks the agent up by overlay (wireguard) IP; an existing
row is updated in place (hostname, public IP, version) and its id returned,
otherwise `AgentRepository.create` inserts a new row with `status=healthy`
and `last_heartbeat=now`. -/

/-- An `agents` table row (fields touched by registration). -/
structure AgentRec where
  id : Nat
  hostname : String
  wireguard_ip : String
  public_ip : Option String
  version : String
  status : String
  last_heartbeat : Option ℚ
deriving DecidableEq

/-- The agents table plus its autoincrement counter. -/
structure AgentsDB where
  nextId : Nat
  agents : List AgentRec
deriving DecidableEq

/-- `AgentRepository.create`: insert a new row with `status=HEALTHY` and
`last_heartbeat=datetime.utcnow()`; the primary key is assigned by the
store. -/
def agentCreate (db : AgentsDB) (now : ℚ) (hostname wgIp : String)
    (publicIp : Option String) (version : String) : AgentsDB × Nat :=
  let agent : AgentRec :=
    { id := db.nextId, hostname := hostname, wireguard_ip := wgIp
      public_ip := publicIp, version := version, status := "healthy"
      last_heartbeat := some now }
  ({ nextId := db.nextId + 1, agents := db.agents ++ [agent] }, agent.id)

/-- `AgentManager.register_agent`: update in place when an agent with the
same overlay IP exists (refreshing hostname, public IP and version only),
otherwise create. -/
def registerAgent (db : AgentsDB) (now : ℚ) (hostname wgIp : String)
    (publicIp : Option String) (version : String) : AgentsDB × Nat :=
  match db.agents.find? (fun a => decide (a.wireguard_ip = wgIp)) with
  | some existing =>
      ({ db with agents := db.agents.map (fun a =>
          if a.id = existing.id then
            { a with hostname := hostname, public_ip := publicIp
                     version := version }
          else a) }, existing.id)
  | none => agentCreate db now hostname wgIp publicIp version

/-! ## Config version (src/controller/core/agent_manager.py lines 66-115)

`_compute_config_version` takes, per table, the SQL `max` of the timestamp
column (`None` on an empty table) — firewall rules and assignments filtered
to rows whose `agent_id` is this agent's or NULL, services and blocklist
unfiltered — plus the row counts of the filtered firewall rules, filtered
assignments and the whole blocklist.  With no timestamps at all it returns
`count + 1`; otherwise `int(max_timestamp.timestamp()) * 10000 +
(fw*100 + asg*10 + blk) % 10000`. -/

/-- Firewall-rule row fields read by the version computation. -/
structure FwRow where
  agent_id : Option Nat
  updated_at : ℚ
deriving DecidableEq

/-- Service-assignment row fields read by the version computation. -/
structure AsgRow where
  service_id : Nat
  agent_id : Option Nat
  enabled : Bool
  updated_at : ℚ
deriving DecidableEq

/-- Service row fields read by the version computation. -/
structure SvcRow where
  updated_at : ℚ
deriving DecidableEq

/-- Blocklist row. -/
structure BlkRow where
  ip : String
  added_at : ℚ
deriving DecidableEq

/-- The configuration tables of the Controller's record store consulted by
`_compute_config_version`. -/
structure ConfigDB where
  firewall_rules : List FwRow
  assignments : List AsgRow
  services : List SvcRow
  blocklist : List BlkRow
deriving DecidableEq

/-- The SQL filter `(agent_id == X) | (agent_id == None)`. -/
def scopedTo (agentId : Nat) : Option Nat → Bool
  | none => true
  | some i => decide (i = agentId)

/-- SQL `func.max` over a column / Python `max` over a list: `none` on the
empty list. -/
def listMaxQ : List ℚ → Option ℚ
  | [] => none
  | t :: rest =>
    match listMaxQ rest with
    | none => some t
    | some m => some (max t m)

/-- Python `int(x)`: truncation toward zero. -/
def pyInt (q : ℚ) : Int := if 0 ≤ q then ⌊q⌋ else ⌈q⌉

/-- Firewall rules in this agent's scope (agent-specific or global). -/
def fwVisible (db : ConfigDB) (agentId : Nat) : List FwRow :=
  db.firewall_rules.filter (fun r => scopedTo agentId r.agent_id)

/-- Assignments in this agent's scope (agent-specific or global). -/
def asgVisible (db : ConfigDB) (agentId : Nat) : List AsgRow :=
  db.assignments.filter (fun r => scopedTo agentId r.agent_id)

/-- Lines 104-111: the non-`None` per-table maxima, then their maximum. -/
def versionMaxTs (db : ConfigDB) (agentId : Nat) : Option ℚ :=
  listMaxQ (List.filterMap id
    [listMaxQ ((fwVisible db agentId).map (·.updated_at)),
     listMaxQ ((asgVisible db agentId).map (·.updated_at)),
     listMaxQ (db.services.map (·.updated_at)),
     listMaxQ (db.blocklist.map (·.added_at))])

/-- Line 114: `count_hash = (firewall*100 + assignment*10 + blocklist) % 10000`. -/
def versionCountHash (db : ConfigDB) (agentId : Nat) : Nat :=
  ((fwVisible db agentId).length * 100 + (asgVisible db agentId).length * 10 +
    db.blocklist.length) % 10000

/-- `AgentManager._compute_config_version`. -/
def computeConfigVersion (db : ConfigDB) (agentId : Nat) : Int :=
  match versionMaxTs db agentId with
  | none =>
      ((fwVisible db agentId).length + (asgVisible db agentId).length +
        db.blocklist.length + 1 : Int)
  | some t => pyInt t * 10000 + (versionCountHash db agentId : Int)

/-- All timestamps of the records in the agent's scope, as one list (the
reading of the claim's "maximum updated_at/added_at over the … records
visible to that agent": firewall rules and assignments agent-scoped, services
and blocklist global, matching the claim's own count clause). -/
def specAllTimestamps (db : ConfigDB) (agentId : Nat) : List ℚ :=
  (fwVisible db agentId).map (·.updated_at) ++
    (asgVisible db agentId).map (·.updated_at) ++
    db.services.map (·.updated_at) ++ db.blocklist.map (·.added_at)

/-- Modelled from the claim's words (C2): `floor(max_timestamp_seconds) *
10000 + (firewall_count*100 + assignment_count*10 + blocklist_count) mod
10000`, falling back to `1 + (firewall_count + assignment_count +
blocklist_count)` when no timestamps exist. -/
def specConfigVersion (db : ConfigDB) (agentId : Nat) : Int :=
  match listMaxQ (specAllTimestamps db agentId) with
  | none =>
      1 + ((fwVisible db agentId).length + (asgVisible db agentId).length +
        db.blocklist.length : Int)
  | some m =>
      ⌊m⌋ * 10000 + (((fwVisible db agentId).length * 100 +
        (asgVisible db agentId).length * 10 + db.blocklist.length) % 10000 : Nat)

/-- All timestamps stored anywhere in the record store (used as the
nonnegativity hypothesis: epoch seconds are nonnegative). -/
def dbTimestamps (db : ConfigDB) : List ℚ :=
  db.firewall_rules.map (·.updated_at) ++ db.assignments.map (·.updated_at) ++
    db.services.map (·.updated_at) ++ db.blocklist.map (·.added_at)

/-- Combination of two optional maxima (SQL `max` of a union of columns). -/
def omaxQ : Option ℚ → Option ℚ → Option ℚ
  | none, o => o
  | some a, none => some a
  | some a, some b => some (max a b)

/-- Concrete record store used by the config-version witnesses: one global
firewall rule and one blocklist entry, both stamped at t = 100 s. -/
def verDb0 : ConfigDB :=
  { firewall_rules := [{ agent_id := none, updated_at := 100 }]
    assignments := [], services := []
    blocklist := [{ ip := "203.0.113.9", added_at := 100 }] }

/-- `BlocklistRepository.remove`: delete the first row with the given IP
(no-op when absent). -/
def blocklistRemove (db : ConfigDB) (ip : String) : ConfigDB :=
  { db with blocklist := removeFirstBy (fun e => decide (e.ip = ip)) db.blocklist }

/-- Record store with a later service timestamp, used by the C1 witness. -/
def verDb1 : ConfigDB :=
  { verDb0 with services := [{ updated_at := 200 }] }

/-! ## Theorems -/

theorem alistFind_append_right {κ α : Type} [DecidableEq κ]
    (l : List (κ × α)) (k : κ) (v : α) (h : alistFind l k = none) :
    alistFind (l ++ [(k, v)]) k = some v := by
  induction l with
  | nil => simp [alistFind]
  | cons hd tl ih =>
      unfold alistFind at h ⊢
      by_cases hk : hd.1 = k
      · simp [hk] at h
      · simpa [hk] using ih (by simpa [hk] using h)

theorem dequeAppend_length_le {α : Type} (cap : Nat) (q : List α) (x : α)
    (h : q.length ≤ cap) : (dequeAppend cap q x).length ≤ cap := by
  unfold dequeAppend
  by_cases hlt : cap < (q ++ [x]).length
  · simp only [hlt, if_true, List.length_drop]
    omega
  · simp only [hlt, if_false]
    simp at hlt ⊢
    omega

theorem dequeAppendLeft_length_le {α : Type} (cap : Nat) (q : List α) (x : α)
    (h : q.length ≤ cap) : (dequeAppendLeft cap q x).length ≤ cap := by
  unfold dequeAppendLeft
  by_cases hlt : cap < (x :: q).length
  · simp only [hlt, if_true, List.length_take]
    omega
  · simp only [hlt, if_false]
    simp at hlt ⊢
    omega

theorem dequeAppendLeft_no_overflow {α : Type} (cap : Nat) (q : List α) (x : α)
    (h : q.length + 1 ≤ cap) : dequeAppendLeft cap q x = x :: q := by
  unfold dequeAppendLeft
  have hn : ¬ cap < (x :: q).length := by simp; omega
  simp only [hn, if_false]

/-- Reinserting a drained batch with `appendleft` in reversed order restores
`batch ++ rest`, as long as the total fits under the cap. -/
theorem reinsert_reversed_eq {α : Type} (cap : Nat) (batch rest : List α)
    (h : batch.length + rest.length ≤ cap) :
    batch.reverse.foldl (fun acc s => dequeAppendLeft cap acc s) rest =
      batch ++ rest := by
  induction batch with
  | nil => simp
  | cons hd tl ih =>
      have hlen : tl.length + rest.length ≤ cap := by simp at h; omega
      calc (hd :: tl).reverse.foldl (fun acc s => dequeAppendLeft cap acc s) rest
          = (tl.reverse ++ [hd]).foldl (fun acc s => dequeAppendLeft cap acc s) rest := by
            simp
        _ = dequeAppendLeft cap
              (tl.reverse.foldl (fun acc s => dequeAppendLeft cap acc s) rest) hd := by
            rw [List.foldl_append]
            rfl
        _ = dequeAppendLeft cap (tl ++ rest) hd := by rw [ih hlen]
        _ = hd :: (tl ++ rest) := by
            apply dequeAppendLeft_no_overflow
            simp at h ⊢
            omega

theorem statsApplyOp_length_le (q : List StatEntry) (op : StatsOp)
    (h : q.length ≤ statsQueueCap) : (statsApplyOp q op).length ≤ statsQueueCap := by
  cases op with
  | record nowIso s => exact dequeAppend_length_le _ _ _ h
  | send ok =>
      simp only [statsApplyOp, sendBatch]
      by_cases hq : q.isEmpty
      · simpa [hq] using h
      · have hb : ¬ (q.take statsBatchSize).isEmpty := by
          cases q with
          | nil => simp at hq
          | cons a l => simp [statsBatchSize]
        rw [if_neg hq, if_neg hb]
        cases ok with
        | true =>
            rw [if_pos rfl]
            simp only [List.length_drop]
            omega
        | false =>
            rw [if_neg (by simp)]
            rw [reinsert_reversed_eq]
            · simp only [List.length_append, List.length_take, List.length_drop]
              omega
            · simp only [List.length_take, List.length_drop]
              omega

/-- C5: over every sequence of `record` and `_send_batch` operations the
stats queue never holds more than 10000 entries; and a `record` on a full
queue drops the oldest entry (the head) and keeps the newly recorded one at
the tail.  `record` is a total function of the queue (it never blocks). -/
theorem stats_queue_bounded_drops_oldest :
    (∀ ops : List StatsOp, (statsRunOps ops).length ≤ statsQueueCap) ∧
    (∀ (q : List StatEntry) (nowIso : String) (s : RecordedStats),
      q.length = statsQueueCap →
      statsRecord q nowIso s = q.drop 1 ++ [mkStatEntry nowIso s]) := by
  constructor
  · have gen : ∀ (ops : List StatsOp) (q : List StatEntry), q.length ≤ statsQueueCap →
        (ops.foldl statsApplyOp q).length ≤ statsQueueCap := by
      intro ops
      induction ops with
      | nil => intro q h; simpa using h
      | cons op rest ih => intro q h; exact ih _ (statsApplyOp_length_le q op h)
    intro ops
    simpa [statsRunOps] using gen ops [] (by simp)
  · intro q nowIso s hfull
    unfold statsRecord dequeAppend
    have hlt : statsQueueCap < (q ++ [mkStatEntry nowIso s]).length := by
      simp only [List.length_append, List.length_singleton, hfull]
      omega
    rw [if_pos hlt]
    have hone : (q ++ [mkStatEntry nowIso s]).length - statsQueueCap = 1 := by
      simp only [List.length_append, List.length_singleton, hfull]
      omega
    rw [hone]
    cases q with
    | nil => simp [statsQueueCap] at hfull
    | cons a l => simp

/-- Witness for `stats_queue_bounded_drops_oldest` at a concrete full queue. -/
theorem stats_queue_bounded_drops_oldest_witness :
    (statsRunOps [StatsOp.record "t0" sampleRecorded]).length ≤ statsQueueCap ∧
    statsRecord (List.replicate statsQueueCap sampleEntry) "t1" sampleRecorded =
      (List.replicate statsQueueCap sampleEntry).drop 1 ++ [mkStatEntry "t1" sampleRecorded] :=
  ⟨stats_queue_bounded_drops_oldest.1 [StatsOp.record "t0" sampleRecorded],
   stats_queue_bounded_drops_oldest.2 (List.replicate statsQueueCap sampleEntry)
     "t1" sampleRecorded (by simp)⟩

/-- C6: a `_send_batch` that fails with a transient network error reinserts
the whole drained batch at the head in its original order, so the queue
afterwards is the failed batch followed by the entries that were behind it;
a successful send delivers the queue's prefix in insertion order and leaves
the remainder. -/
theorem stats_retry_prepends_batch (q : List StatEntry)
    (h : q.length ≤ statsQueueCap) :
    (sendBatch q false).1 = q.take statsBatchSize ++ q.drop statsBatchSize ∧
    (sendBatch q true).2 = q.take statsBatchSize ∧
    (sendBatch q true).1 = q.drop statsBatchSize := by
  cases q with
  | nil => simp [sendBatch]
  | cons a l =>
      have hq : ¬ ((a :: l) : List StatEntry).isEmpty = true := by simp
      have hb : ¬ ((a :: l).take statsBatchSize).isEmpty = true := by
        simp [statsBatchSize]
      refine ⟨?_, ?_, ?_⟩
      · simp only [sendBatch]
        rw [if_neg hq, if_neg hb, if_neg (by simp)]
        apply reinsert_reversed_eq
        simp only [List.length_take, List.length_drop]
        simp only [List.length_cons] at h ⊢
        omega
      · simp only [sendBatch]
        rw [if_neg hq, if_neg hb, if_pos trivial]
      · simp only [sendBatch]
        rw [if_neg hq, if_neg hb, if_pos trivial]

/-- Witness for `stats_retry_prepends_batch` at a concrete one-entry queue. -/
theorem stats_retry_prepends_batch_witness :
    (sendBatch [sampleEntry] false).1 =
      ([sampleEntry] : List StatEntry).take statsBatchSize ++
        ([sampleEntry] : List StatEntry).drop statsBatchSize ∧
    (sendBatch [sampleEntry] true).2 = ([sampleEntry] : List StatEntry).take statsBatchSize ∧
    (sendBatch [sampleEntry] true).1 = ([sampleEntry] : List StatEntry).drop statsBatchSize :=
  stats_retry_prepends_batch [sampleEntry] (by simp [statsQueueCap])

theorem alistFind_append_left {κ α : Type} [DecidableEq κ]
    {l₁ : List (κ × α)} (l₂ : List (κ × α)) {k : κ} {v : α}
    (h : alistFind l₁ k = some v) : alistFind (l₁ ++ l₂) k = some v := by
  induction l₁ with
  | nil => simp [alistFind] at h
  | cons hd tl ih =>
      obtain ⟨k₁, v₁⟩ := hd
      simp only [alistFind, List.cons_append] at h ⊢
      by_cases hk : k₁ = k
      · simpa [hk] using h
      · rw [if_neg hk] at h ⊢
        exact ih h

theorem tcpAddProxies_find_some {st : List (Nat × ProxyEntry)} {p : Nat}
    {v : ProxyEntry} (rules : List SvcDict) (h : alistFind st p = some v) :
    alistFind (tcpAddProxies st rules) p = some v := by
  induction rules generalizing st with
  | nil => simpa [tcpAddProxies] using h
  | cons r rest ih =>
      unfold tcpAddProxies
      by_cases hc : r.protocol = "tcp" ∧ alistFind st r.listen_port = none
      · rw [if_pos hc]
        exact ih (alistFind_append_left _ h)
      · rw [if_neg hc]
        exact ih h

/-- C3 (code bug evaluation): applying a config that contains one new UDP
service makes `UDPProxyManager.sync_proxies` read the dict key
`resolved_backend_host`, which `_on_config_update` never supplies; the apply
aborts with a `KeyError` and no UDP listener is started, although the config
demands a UDP listener on port 5353. -/
theorem applyServices_udp_keyerror :
    applyServices { tcpProxies := [], udpProxies := [] } [svcDns] =
      .error "KeyError: resolved_backend_host" ∧
    desiredPorts "udp" ([svcDns].map toSvcDict) = [5353] := by
  constructor
  · rfl
  · rfl

/-- C10: an inbound datagram whose source IP is blocked is dropped before the
session lookup: the protocol state is completely unchanged (no session
created or scheduled, no counters or `last_activity` touched, nothing
forwarded to the backend), and a later cleanup sweep therefore behaves
exactly as if the datagram had never arrived. -/
theorem blocked_datagram_is_noop (st : UDPProtoState) (len : Nat)
    (addr : String × Nat) (now later : ℚ) (h : addr.1 ∈ st.blocklist) :
    datagramReceived st len addr now = st ∧
    cleanupSweep (datagramReceived st len addr now) later = cleanupSweep st later := by
  have heq : datagramReceived st len addr now = st := by
    unfold datagramReceived
    rw [if_pos h]
  exact ⟨heq, by rw [heq]⟩

/-- Witness for `blocked_datagram_is_noop` on a concrete blocked datagram. -/
theorem blocked_datagram_is_noop_witness :
    datagramReceived udpState0 5 ("203.0.113.7", 40001) 100 = udpState0 ∧
    cleanupSweep (datagramReceived udpState0 5 ("203.0.113.7", 40001) 100) 500 =
      cleanupSweep udpState0 500 :=
  blocked_datagram_is_noop udpState0 5 ("203.0.113.7", 40001) 100 500
    (by simp [udpState0])

/-- C4 counterexample: a first datagram from a non-blocked, unknown source is
handled, yet immediately afterwards the source address is still absent from
the session table — `datagram_received` only schedules the session creation
with `asyncio.create_task`, it does not perform it synchronously. -/
theorem udp_new_client_not_synchronous :
    ("198.51.100.9" ∉ udpOpenState.blocklist) ∧
    alistFind udpOpenState.clients ("198.51.100.9", 40000) = none ∧
    alistFind (datagramReceived udpOpenState 5 ("198.51.100.9", 40000) 100).clients
      ("198.51.100.9", 40000) = none := by
  refine ⟨by simp [udpOpenState], rfl, rfl⟩

/-- C4 amended: for a non-blocked datagram from an unknown source the handler
schedules an asynchronous `_create_backend_connection` task and leaves the
session table untouched, so the source address is not yet in the table; when
the scheduled task runs it stores the session (with the initial datagram's
bytes and one packet counted and `last_activity` set) and forwards the
initial datagram to the backend. -/
theorem udp_new_client_creates_via_task (st : UDPProtoState) (len : Nat)
    (addr : String × Nat) (now now' : ℚ)
    (hb : addr.1 ∉ st.blocklist) (hn : alistFind st.clients addr = none) :
    datagramReceived st len addr now =
      { st with pendingCreates := st.pendingCreates ++ [(addr, len)] } ∧
    (runCreateBackend (datagramReceived st len addr now) addr len now').clients =
      st.clients ++ [(addr, initialSession st addr len now')] ∧
    (runCreateBackend (datagramReceived st len addr now) addr len now').backendSent =
      st.backendSent ++ [(addr, len)] := by
  have hstep : datagramReceived st len addr now =
      { st with pendingCreates := st.pendingCreates ++ [(addr, len)] } := by
    unfold datagramReceived
    rw [if_neg hb, hn]
  refine ⟨hstep, ?_, ?_⟩
  · rw [hstep]
    unfold runCreateBackend
    simp only [hn, Option.isSome_none, Bool.false_eq_true, if_false]
    rfl
  · rw [hstep]
    rfl

/-- Witness for `udp_new_client_creates_via_task` on a concrete state. -/
theorem udp_new_client_creates_via_task_witness :
    datagramReceived udpOpenState 5 ("198.51.100.10", 40000) 100 =
      { udpOpenState with pendingCreates :=
          udpOpenState.pendingCreates ++ [(("198.51.100.10", 40000), 5)] } ∧
    (runCreateBackend (datagramReceived udpOpenState 5 ("198.51.100.10", 40000) 100)
        ("198.51.100.10", 40000) 5 101).clients =
      udpOpenState.clients ++
        [(("198.51.100.10", 40000), initialSession udpOpenState ("198.51.100.10", 40000) 5 101)] ∧
    (runCreateBackend (datagramReceived udpOpenState 5 ("198.51.100.10", 40000) 100)
        ("198.51.100.10", 40000) 5 101).backendSent =
      udpOpenState.backendSent ++ [(("198.51.100.10", 40000), 5)] :=
  udp_new_client_creates_via_task udpOpenState 5 ("198.51.100.10", 40000) 100 101
    (by simp [udpOpenState]) rfl

/-- C8: a connection from a blocked client never opens a backend connection,
its stat carries `status = "blocked"` with zero bytes in both directions, the
client socket is closed, and exactly one `ConnectionStats` record is emitted
(the final stat itself), whatever the environment would have done. -/
theorem blocked_tcp_client_zero_bytes (blocklist : List String)
    (serviceId : Nat) (clientIp : String) (clientPort : Nat) (now : ℚ)
    (env : TCPFlowEnv) (h : clientIp ∈ blocklist) :
    (handleClient blocklist serviceId clientIp clientPort now env).openedBackend = false ∧
    (handleClient blocklist serviceId clientIp clientPort now env).stat.bytes_sent = 0 ∧
    (handleClient blocklist serviceId clientIp clientPort now env).stat.bytes_received = 0 ∧
    (handleClient blocklist serviceId clientIp clientPort now env).stat.status = "blocked" ∧
    (handleClient blocklist serviceId clientIp clientPort now env).closedClient = true ∧
    (handleClient blocklist serviceId clientIp clientPort now env).emitted =
      [(handleClient blocklist serviceId clientIp clientPort now env).stat] := by
  unfold handleClient
  rw [if_pos h]
  exact ⟨rfl, rfl, rfl, rfl, rfl, rfl⟩

/-- Witness for `blocked_tcp_client_zero_bytes` on a concrete blocked IP. -/
theorem blocked_tcp_client_zero_bytes_witness :
    (handleClient ["198.51.100.9"] 1 "198.51.100.9" 51000 100
        { connect := .success, c2bBytes := 5, b2cBytes := 5 }).openedBackend = false ∧
    (handleClient ["198.51.100.9"] 1 "198.51.100.9" 51000 100
        { connect := .success, c2bBytes := 5, b2cBytes := 5 }).stat.bytes_sent = 0 ∧
    (handleClient ["198.51.100.9"] 1 "198.51.100.9" 51000 100
        { connect := .success, c2bBytes := 5, b2cBytes := 5 }).stat.bytes_received = 0 ∧
    (handleClient ["198.51.100.9"] 1 "198.51.100.9" 51000 100
        { connect := .success, c2bBytes := 5, b2cBytes := 5 }).stat.status = "blocked" ∧
    (handleClient ["198.51.100.9"] 1 "198.51.100.9" 51000 100
        { connect := .success, c2bBytes := 5, b2cBytes := 5 }).closedClient = true ∧
    (handleClient ["198.51.100.9"] 1 "198.51.100.9" 51000 100
        { connect := .success, c2bBytes := 5, b2cBytes := 5 }).emitted =
      [(handleClient ["198.51.100.9"] 1 "198.51.100.9" 51000 100
        { connect := .success, c2bBytes := 5, b2cBytes := 5 }).stat] :=
  blocked_tcp_client_zero_bytes ["198.51.100.9"] 1 "198.51.100.9" 51000 100
    { connect := .success, c2bBytes := 5, b2cBytes := 5 } (by simp)

theorem removePhase_fst (resolve : String → Option String)
    (removeOk : FirewallRuleKey → Bool) (dKeys : List FirewallRuleKey)
    (cur : List FirewallRuleKey) :
    (removePhase resolve removeOk dKeys cur).1 =
      cur.filter (fun k => decide (k ∈ dKeys)) := by
  induction cur with
  | nil => rfl
  | cons k rest ih =>
      unfold removePhase
      by_cases hk : k ∈ dKeys
      · simp [if_pos hk, List.filter_cons, hk, ih]
      · rw [if_neg hk]
        cases resolve k.interface with
        | none => simpa [List.filter_cons, hk] using ih
        | some i => simpa [List.filter_cons, hk] using ih

theorem addPhase_mem_left (addOk : FirewallRuleKey → Bool)
    (l : List (FirewallRuleKey × String)) (cur : List FirewallRuleKey)
    (k : FirewallRuleKey) (h : k ∈ cur) : k ∈ (addPhase addOk cur l).1 := by
  induction l generalizing cur with
  | nil => simpa [addPhase] using h
  | cons hd rest ih =>
      obtain ⟨k', s⟩ := hd
      unfold addPhase
      by_cases hc : k' ∈ cur
      · rw [if_pos hc]; exact ih cur h
      · rw [if_neg hc]
        by_cases ha : addOk k' = true
        · rw [if_pos ha]
          exact ih (cur ++ [k']) (List.mem_append_left _ h)
        · rw [if_neg ha]
          exact ih cur h

theorem addPhase_mem_src (addOk : FirewallRuleKey → Bool)
    (l : List (FirewallRuleKey × String)) (cur : List FirewallRuleKey)
    (k : FirewallRuleKey) (h : k ∈ (addPhase addOk cur l).1) :
    k ∈ cur ∨ k ∈ l.map Prod.fst := by
  induction l generalizing cur with
  | nil => left; simpa [addPhase] using h
  | cons hd rest ih =>
      obtain ⟨k', s⟩ := hd
      unfold addPhase at h
      by_cases hc : k' ∈ cur
      · rw [if_pos hc] at h
        rcases ih cur h with h1 | h1
        · exact Or.inl h1
        · exact Or.inr (by simpa using Or.inr h1)
      · rw [if_neg hc] at h
        by_cases ha : addOk k' = true
        · rw [if_pos ha] at h
          rcases ih (cur ++ [k']) h with h1 | h1
          · rcases List.mem_append.mp h1 with h2 | h2
            · exact Or.inl h2
            · exact Or.inr (by simpa using Or.inl (List.mem_singleton.mp h2))
          · exact Or.inr (by simpa using Or.inr h1)
        · rw [if_neg ha] at h
          rcases ih cur h with h1 | h1
          · exact Or.inl h1
          · exact Or.inr (by simpa using Or.inr h1)

theorem addPhase_failed_absent (addOk : FirewallRuleKey → Bool)
    (l : List (FirewallRuleKey × String)) (cur : List FirewallRuleKey)
    (k : FirewallRuleKey) (hf : addOk k = false) (hc : k ∉ cur) :
    k ∉ (addPhase addOk cur l).1 := by
  induction l generalizing cur with
  | nil => simpa [addPhase] using hc
  | cons hd rest ih =>
      obtain ⟨k', s⟩ := hd
      unfold addPhase
      by_cases hmem : k' ∈ cur
      · rw [if_pos hmem]; exact ih cur hc
      · rw [if_neg hmem]
        by_cases ha : addOk k' = true
        · rw [if_pos ha]
          apply ih (cur ++ [k'])
          intro hk
          rcases List.mem_append.mp hk with h1 | h1
          · exact hc h1
          · rw [List.mem_singleton.mp h1] at hf
            rw [hf] at ha
            exact Bool.noConfusion ha
        · rw [if_neg ha]
          exact ih cur hc

theorem addPhase_success_mem (addOk : FirewallRuleKey → Bool)
    (l : List (FirewallRuleKey × String)) (cur : List FirewallRuleKey)
    (k : FirewallRuleKey) (ha : addOk k = true) (hl : k ∈ l.map Prod.fst) :
    k ∈ (addPhase addOk cur l).1 := by
  induction l generalizing cur with
  | nil => simp at hl
  | cons hd rest ih =>
      obtain ⟨k', s⟩ := hd
      unfold addPhase
      by_cases heq : k' = k
      · subst heq
        by_cases hmem : k' ∈ cur
        · rw [if_pos hmem]
          exact addPhase_mem_left addOk rest cur k' hmem
        · rw [if_neg hmem, if_pos ha]
          exact addPhase_mem_left addOk rest (cur ++ [k']) k'
            (List.mem_append_right _ (List.mem_singleton.mpr rfl))
      · have hl' : k ∈ rest.map Prod.fst := by
          simp only [List.map_cons, List.mem_cons] at hl
          rcases hl with h1 | h1
          · exact absurd h1.symm heq
          · exact h1
        by_cases hmem : k' ∈ cur
        · rw [if_pos hmem]; exact ih cur hl'
        · rw [if_neg hmem]
          by_cases ha' : addOk k' = true
          · rw [if_pos ha']; exact ih (cur ++ [k']) hl'
          · rw [if_neg ha']; exact ih cur hl'

/-- C7 counterexample: syncing away an installed rule issues the
`iptables -D` command, the command fails (`ok = false` in the log), and the
key is nevertheless dropped from the in-memory current-rule set — a failed
remove is not kept for retry. -/
theorem firewall_failed_remove_not_kept :
    syncRules resolve0 (fun _ => true) (fun _ => false) [fwKey0] [] =
      ([], [{ op := FwOp.remove, key := fwKey0, ok := false }]) := by
  rfl

/-- C7 amended: the in-memory current-rule set is updated on success only for
additions — a failed add leaves the key out, so the next sync retries it, and
a key that is desired and already installed stays installed; removals,
however, always drop the key from the in-memory set regardless of whether the
`iptables` remove command succeeded, so failed removes are not retried. -/
theorem firewall_sync_add_only_on_success (resolve : String → Option String)
    (addOk removeOk : FirewallRuleKey → Bool) (current : List FirewallRuleKey)
    (rules : List FwAgentRule) (k : FirewallRuleKey) :
    (k ∉ (desiredList resolve rules).map Prod.fst →
      k ∉ (syncRules resolve addOk removeOk current rules).1) ∧
    (k ∈ (desiredList resolve rules).map Prod.fst → k ∈ current →
      k ∈ (syncRules resolve addOk removeOk current rules).1) ∧
    (k ∉ current → addOk k = false →
      k ∉ (syncRules resolve addOk removeOk current rules).1) ∧
    (k ∈ (desiredList resolve rules).map Prod.fst → addOk k = true →
      k ∈ (syncRules resolve addOk removeOk current rules).1) := by
  have hfst : (syncRules resolve addOk removeOk current rules).1 =
      (addPhase addOk (current.filter
        (fun x => decide (x ∈ (desiredList resolve rules).map Prod.fst)))
        (desiredList resolve rules)).1 := by
    show (addPhase addOk
        (removePhase resolve removeOk
          ((desiredList resolve rules).map Prod.fst) current).1
        (desiredList resolve rules)).1 = _
    rw [removePhase_fst]
  refine ⟨?_, ?_, ?_, ?_⟩
  · intro hnd hmem
    rw [hfst] at hmem
    rcases addPhase_mem_src _ _ _ _ hmem with h1 | h1
    · have := List.mem_filter.mp h1
      exact hnd (by simpa using this.2)
    · exact hnd h1
  · intro hd hcur
    rw [hfst]
    exact addPhase_mem_left _ _ _ _
      (List.mem_filter.mpr ⟨hcur, by simpa using hd⟩)
  · intro hcur hfail
    rw [hfst]
    apply addPhase_failed_absent _ _ _ _ hfail
    intro hmem
    exact hcur (List.mem_filter.mp hmem).1
  · intro hd hok
    rw [hfst]
    exact addPhase_success_mem _ _ _ _ hok hd

/-- Witness for `firewall_sync_add_only_on_success` at concrete inputs. -/
theorem firewall_sync_add_only_on_success_witness :
    (fwKey1 ∉ (syncRules resolve0 (fun _ => true) (fun _ => false) [fwKey1] fwRules0).1) ∧
    (fwKey0 ∈ (syncRules resolve0 (fun _ => true) (fun _ => true) [fwKey0] fwRules0).1) ∧
    (fwKey0 ∉ (syncRules resolve0 (fun _ => false) (fun _ => true) [] fwRules0).1) ∧
    (fwKey0 ∈ (syncRules resolve0 (fun _ => true) (fun _ => true) [] fwRules0).1) :=
  ⟨(firewall_sync_add_only_on_success resolve0 (fun _ => true) (fun _ => false)
      [fwKey1] fwRules0 fwKey1).1 (by decide),
   (firewall_sync_add_only_on_success resolve0 (fun _ => true) (fun _ => true)
      [fwKey0] fwRules0 fwKey0).2.1 (by decide) (by decide),
   (firewall_sync_add_only_on_success resolve0 (fun _ => false) (fun _ => true)
      [] fwRules0 fwKey0).2.2.1 (by decide) rfl,
   (firewall_sync_add_only_on_success resolve0 (fun _ => true) (fun _ => true)
      [] fwRules0 fwKey0).2.2.2 (by decide) rfl⟩

theorem find?_append_none {α : Type} (p : α → Bool) (l₁ l₂ : List α)
    (h : l₁.find? p = none) : (l₁ ++ l₂).find? p = l₂.find? p := by
  induction l₁ with
  | nil => rfl
  | cons a tl ih =>
      rw [List.find?_cons] at h
      cases hp : p a with
      | true => rw [hp] at h; exact Option.noConfusion h
      | false =>
          rw [hp] at h
          rw [List.cons_append, List.find?_cons, hp]
          exact ih h

theorem filter_map_of_pred_comm {α : Type} (p : α → Bool) (f : α → α)
    (l : List α) (h : ∀ a, p (f a) = p a) :
    (l.map f).filter p = (l.filter p).map f := by
  induction l with
  | nil => rfl
  | cons a tl ih =>
      simp only [List.map_cons, List.filter_cons, h a]
      cases hp : p a with
      | true => simp [ih]
      | false => simp [ih]

/-- C9: registering twice with the same overlay IP against a store that does
not yet contain that IP leaves exactly one matching Agent row.  The first
call creates it with `status=healthy` and `last_heartbeat=now`; the second
call returns the same id and refreshes only hostname, public IP and version
(keeping the id, status, and original heartbeat). -/
theorem register_twice_same_overlay_ip (db : AgentsDB) (now₁ now₂ : ℚ)
    (h₁ h₂ w : String) (p₁ p₂ : Option String) (v₁ v₂ : String)
    (hfresh : ∀ a ∈ db.agents, a.wireguard_ip ≠ w) :
    (registerAgent db now₁ h₁ w p₁ v₁).1.agents.filter
        (fun a => decide (a.wireguard_ip = w)) =
      [{ id := db.nextId, hostname := h₁, wireguard_ip := w, public_ip := p₁
         version := v₁, status := "healthy", last_heartbeat := some now₁ }] ∧
    (registerAgent (registerAgent db now₁ h₁ w p₁ v₁).1 now₂ h₂ w p₂ v₂).2 =
      (registerAgent db now₁ h₁ w p₁ v₁).2 ∧
    (registerAgent (registerAgent db now₁ h₁ w p₁ v₁).1 now₂ h₂ w p₂ v₂).1.agents.filter
        (fun a => decide (a.wireguard_ip = w)) =
      [{ id := db.nextId, hostname := h₂, wireguard_ip := w, public_ip := p₂
         version := v₂, status := "healthy", last_heartbeat := some now₁ }] := by
  have hnone : db.agents.find? (fun a => decide (a.wireguard_ip = w)) = none := by
    rw [List.find?_eq_none]
    intro a ha
    simpa using hfresh a ha
  have hfilterNil : db.agents.filter (fun a => decide (a.wireguard_ip = w)) = [] := by
    rw [List.filter_eq_nil_iff]
    intro a ha
    simpa using hfresh a ha
  set new₁ : AgentRec :=
    { id := db.nextId, hostname := h₁, wireguard_ip := w, public_ip := p₁
      version := v₁, status := "healthy", last_heartbeat := some now₁ } with hnew₁
  have hr₁ : registerAgent db now₁ h₁ w p₁ v₁ =
      ({ nextId := db.nextId + 1, agents := db.agents ++ [new₁] }, db.nextId) := by
    unfold registerAgent
    rw [hnone]
    rfl
  have hfind₂ : (db.agents ++ [new₁]).find?
      (fun a => decide (a.wireguard_ip = w)) = some new₁ := by
    rw [find?_append_none _ _ _ hnone]
    simp [hnew₁]
  refine ⟨?_, ?_, ?_⟩
  · rw [hr₁]
    simp only [List.filter_append, hfilterNil, List.nil_append]
    simp [hnew₁]
  · rw [hr₁]
    show (registerAgent { nextId := db.nextId + 1, agents := db.agents ++ [new₁] }
        now₂ h₂ w p₂ v₂).2 = db.nextId
    unfold registerAgent
    rw [hfind₂]
  · rw [hr₁]
    show (registerAgent { nextId := db.nextId + 1, agents := db.agents ++ [new₁] }
        now₂ h₂ w p₂ v₂).1.agents.filter (fun a => decide (a.wireguard_ip = w)) = _
    unfold registerAgent
    rw [hfind₂]
    show ((db.agents ++ [new₁]).map _).filter _ = _
    rw [filter_map_of_pred_comm _ _ _ (by
      intro a
      by_cases hid : a.id = new₁.id
      · simp [hid]
      · simp [hid])]
    rw [List.filter_append, hfilterNil, List.nil_append]
    simp [hnew₁]

/-- Witness for `register_twice_same_overlay_ip` on an empty store. -/
theorem register_twice_same_overlay_ip_witness :
    (registerAgent ⟨1, []⟩ 100 "a1" "10.0.0.2" none "2.0.0").1.agents.filter
        (fun a => decide (a.wireguard_ip = "10.0.0.2")) =
      [{ id := 1, hostname := "a1", wireguard_ip := "10.0.0.2", public_ip := none
         version := "2.0.0", status := "healthy", last_heartbeat := some 100 }] ∧
    (registerAgent (registerAgent ⟨1, []⟩ 100 "a1" "10.0.0.2" none "2.0.0").1
        200 "a1b" "10.0.0.2" (some "203.0.113.1") "2.1.0").2 =
      (registerAgent ⟨1, []⟩ 100 "a1" "10.0.0.2" none "2.0.0").2 ∧
    (registerAgent (registerAgent ⟨1, []⟩ 100 "a1" "10.0.0.2" none "2.0.0").1
        200 "a1b" "10.0.0.2" (some "203.0.113.1") "2.1.0").1.agents.filter
        (fun a => decide (a.wireguard_ip = "10.0.0.2")) =
      [{ id := 1, hostname := "a1b", wireguard_ip := "10.0.0.2"
         public_ip := some "203.0.113.1", version := "2.1.0"
         status := "healthy", last_heartbeat := some 100 }] :=
  register_twice_same_overlay_ip ⟨1, []⟩ 100 200 "a1" "a1b" "10.0.0.2" none
    (some "203.0.113.1") "2.0.0" "2.1.0" (by simp)

theorem listMaxQ_cons (t : ℚ) (rest : List ℚ) :
    listMaxQ (t :: rest) =
      match listMaxQ rest with
      | none => some t
      | some m => some (max t m) := rfl

theorem listMaxQ_append (l₁ l₂ : List ℚ) :
    listMaxQ (l₁ ++ l₂) = omaxQ (listMaxQ l₁) (listMaxQ l₂) := by
  induction l₁ with
  | nil =>
      rw [List.nil_append]
      cases hl : listMaxQ l₂ <;> rfl
  | cons t rest ih =>
      rw [List.cons_append, listMaxQ_cons, listMaxQ_cons, ih]
      cases hr : listMaxQ rest <;> cases hl : listMaxQ l₂ <;>
        simp [omaxQ, max_assoc]

theorem listMaxQ_mem (l : List ℚ) (t : ℚ) (h : listMaxQ l = some t) : t ∈ l := by
  induction l generalizing t with
  | nil => simp [listMaxQ] at h
  | cons a rest ih =>
      rw [listMaxQ_cons] at h
      cases hr : listMaxQ rest with
      | none =>
          rw [hr] at h
          have : a = t := by simpa using h
          rw [← this]
          exact List.mem_cons_self a rest
      | some m =>
          rw [hr] at h
          have hmax : max a m = t := by simpa using h
          rcases max_choice a m with hc | hc
          · have : t = a := by rw [← hmax, hc]
            rw [this]
            exact List.mem_cons_self a rest
          · have : t = m := by rw [← hmax, hc]
            rw [this]
            exact List.mem_cons_of_mem a (ih m hr)

theorem versionMaxTs_eq_spec (db : ConfigDB) (agentId : Nat) :
    versionMaxTs db agentId = listMaxQ (specAllTimestamps db agentId) := by
  unfold versionMaxTs specAllTimestamps
  rw [listMaxQ_append, listMaxQ_append, listMaxQ_append]
  cases h₁ : listMaxQ ((fwVisible db agentId).map (·.updated_at)) <;>
    cases h₂ : listMaxQ ((asgVisible db agentId).map (·.updated_at)) <;>
      cases h₃ : listMaxQ (db.services.map (·.updated_at)) <;>
        cases h₄ : listMaxQ (db.blocklist.map (·.added_at)) <;>
          simp [listMaxQ, omaxQ, max_assoc]

/-- C2: the version returned by `_compute_config_version` agrees with the
spec's closed formula, for any store whose timestamps are nonnegative epoch
seconds (under which Python `int()` is `floor`). -/
theorem config_version_formula (db : ConfigDB) (agentId : Nat)
    (hpos : ∀ q ∈ dbTimestamps db, 0 ≤ q) :
    computeConfigVersion db agentId = specConfigVersion db agentId := by
  unfold computeConfigVersion specConfigVersion
  rw [versionMaxTs_eq_spec]
  cases hmax : listMaxQ (specAllTimestamps db agentId) with
  | none =>
      dsimp only
      ring
  | some m =>
      have hmem : m ∈ specAllTimestamps db agentId := listMaxQ_mem _ _ hmax
      have hfw : ∀ q, q ∈ (fwVisible db agentId).map (·.updated_at) →
          q ∈ db.firewall_rules.map (·.updated_at) := by
        intro q hq
        obtain ⟨r, hr, hrq⟩ := List.mem_map.mp hq
        exact List.mem_map.mpr ⟨r, (List.mem_filter.mp hr).1, hrq⟩
      have hasg : ∀ q, q ∈ (asgVisible db agentId).map (·.updated_at) →
          q ∈ db.assignments.map (·.updated_at) := by
        intro q hq
        obtain ⟨r, hr, hrq⟩ := List.mem_map.mp hq
        exact List.mem_map.mpr ⟨r, (List.mem_filter.mp hr).1, hrq⟩
      have hm : (0 : ℚ) ≤ m := by
        apply hpos m
        unfold specAllTimestamps at hmem
        unfold dbTimestamps
        rcases List.mem_append.mp hmem with h1 | h4
        · rcases List.mem_append.mp h1 with h2 | h3
          · rcases List.mem_append.mp h2 with h5 | h6
            · exact List.mem_append.mpr (Or.inl (List.mem_append.mpr
                (Or.inl (List.mem_append.mpr (Or.inl (hfw m h5))))))
            · exact List.mem_append.mpr (Or.inl (List.mem_append.mpr
                (Or.inl (List.mem_append.mpr (Or.inr (hasg m h6))))))
          · exact List.mem_append.mpr (Or.inl (List.mem_append.mpr (Or.inr h3)))
        · exact List.mem_append.mpr (Or.inr h4)
      dsimp only
      unfold pyInt versionCountHash
      rw [if_pos hm]

/-- Witness for `config_version_formula` on `verDb0`. -/
theorem config_version_formula_witness :
    computeConfigVersion verDb0 1 = specConfigVersion verDb0 1 :=
  config_version_formula verDb0 1 (by
    intro q hq
    simp only [dbTimestamps, verDb0, List.map_cons, List.map_nil,
      List.append_nil, List.nil_append, List.cons_append, List.mem_cons,
      List.not_mem_nil, or_false, List.mem_singleton] at hq
    rcases hq with h | h <;> rw [h] <;> norm_num)

theorem removeFirstBy_length {α : Type} (p : α → Bool) (l : List α)
    (h : ∃ e ∈ l, p e = true) :
    (removeFirstBy p l).length + 1 = l.length := by
  induction l with
  | nil => simp at h
  | cons x xs ih =>
      unfold removeFirstBy
      by_cases hx : p x = true
      · rw [if_pos hx]
        rfl
      · rw [if_neg hx]
        simp only [List.length_cons, Nat.add_right_cancel_iff]
        apply ih
        rcases h with ⟨e, he, hpe⟩
        rcases List.mem_cons.mp he with h1 | h1
        · rw [h1] at hpe; exact absurd hpe hx
        · exact ⟨e, h1, hpe⟩

/-- C1 counterexample: deleting the (agent-visible) blocklist entry of
`verDb0` leaves the maximum timestamp at 100 s but lowers the count hash, so
the next `config_version` is strictly SMALLER than the one before the
mutation — not strictly greater as claimed. -/
theorem config_version_not_monotone :
    (verDb0.blocklist.map (fun e => e.ip) = ["203.0.113.9"]) ∧
    computeConfigVersion (blocklistRemove verDb0 "203.0.113.9") 1 <
      computeConfigVersion verDb0 1 := by
  constructor
  · rfl
  · decide

/-- C1 amended: (a) any mutation that strictly increases the truncated
maximum visible timestamp strictly increases `config_version`; (b) deleting a
blocklist entry while the maximum visible timestamp stays the same always
CHANGES `config_version` (the count hash moves by one), but — as the
counterexample shows — the new version may be smaller. -/
theorem config_version_change_on_mutation :
    (∀ (db db' : ConfigDB) (agentId : Nat) (t t' : ℚ),
      versionMaxTs db agentId = some t → versionMaxTs db' agentId = some t' →
      pyInt t < pyInt t' →
      computeConfigVersion db agentId < computeConfigVersion db' agentId) ∧
    (∀ (db : ConfigDB) (ip : String) (agentId : Nat) (t : ℚ),
      (∃ e ∈ db.blocklist, e.ip = ip) →
      versionMaxTs db agentId = some t →
      versionMaxTs (blocklistRemove db ip) agentId = some t →
      computeConfigVersion (blocklistRemove db ip) agentId ≠
        computeConfigVersion db agentId) := by
  constructor
  · intro db db' agentId t t' h1 h2 hlt
    unfold computeConfigVersion
    rw [h1, h2]
    dsimp only
    have hh : versionCountHash db agentId < 10000 :=
      Nat.mod_lt _ (by norm_num)
    have hh' : 0 ≤ versionCountHash db' agentId := Nat.zero_le _
    omega
  · intro db ip agentId t hex h1 h2
    unfold computeConfigVersion
    rw [h1, h2]
    dsimp only
    have hlen : (removeFirstBy (fun e => decide (e.ip = ip)) db.blocklist).length + 1 =
        db.blocklist.length := by
      apply removeFirstBy_length
      rcases hex with ⟨e, he, hip⟩
      exact ⟨e, he, by simpa using hip⟩
    have hfw : fwVisible (blocklistRemove db ip) agentId = fwVisible db agentId := rfl
    have hasg : asgVisible (blocklistRemove db ip) agentId = asgVisible db agentId := rfl
    have hblk : (blocklistRemove db ip).blocklist =
        removeFirstBy (fun e => decide (e.ip = ip)) db.blocklist := rfl
    unfold versionCountHash
    rw [hfw, hasg, hblk]
    intro heq
    have heq' : (((fwVisible db agentId).length * 100 +
        (asgVisible db agentId).length * 10 +
        (removeFirstBy (fun e => decide (e.ip = ip)) db.blocklist).length) % 10000 : Int) =
        (((fwVisible db agentId).length * 100 + (asgVisible db agentId).length * 10 +
        db.blocklist.length) % 10000 : Int) := by omega
    omega

/-- Witness for `config_version_change_on_mutation` at concrete stores. -/
theorem config_version_change_on_mutation_witness :
    computeConfigVersion verDb0 1 < computeConfigVersion verDb1 1 ∧
    computeConfigVersion (blocklistRemove verDb0 "203.0.113.9") 1 ≠
      computeConfigVersion verDb0 1 :=
  ⟨config_version_change_on_mutation.1 verDb0 verDb1 1 100 200
      (by decide) (by decide) (by decide),
   config_version_change_on_mutation.2 verDb0 "203.0.113.9" 1 100
      ⟨{ ip := "203.0.113.9", added_at := 100 }, by decide, rfl⟩
      (by decide) (by decide)⟩

end NekoProxy
